import Mathlib

/-!
# startrace.go (pilosa/getting-started): a shallow embedding

The Go program `src/go/startrace.go` is a sequential script: it parses its
arguments, loads `languages.txt`, sends six PQL queries through a client and
prints the answers.  The embedding keeps the program order observable: every
effect (a write to standard output, a call of the client, opening the label
file) is recorded as an `Event`, and a run ends by returning, by `os.Exit`, or
by a Go panic.

Go values are modelled as follows.
* `string` is a byte sequence (`GoString`); `str` gives the bytes of a literal.
* `uint64` / `int` values are natural numbers (no arithmetic on them can
  overflow here: the program only prints them, compares a length with 2 and
  adds 1 to a loop index).
* a pointer that may be nil is an `Option`; dereferencing `none` panics.
* a `(value, error)` result is kept as a pair of options, since the program
  reads the value even where it never looks at the error.

The client library (`github.com/pilosa/go-pilosa`), `os`, `path` and `bufio`
are not part of the repository.  The client, the file system and `path.Join`
are parameters (`Client`, `Env`); `bufio.Scanner` with its default split
function `bufio.ScanLines` is modelled after the Go standard library.
-/

namespace Startrace

/-! ## Go values -/

/-- A Go `string`: a sequence of bytes. -/
abbrev GoString := List UInt8

/-- The bytes (UTF-8) of a string literal. -/
def str (s : String) : GoString := s.data.flatMap String.utf8EncodeChar

/-- Decimal rendering of a number, as the verb `%d` of `fmt` prints it. -/
def itoa (n : Nat) : GoString := str (toString n)

/-- A Go `error` value, identified by its message. -/
structure GoError where
  msg : GoString
deriving DecidableEq, Repr

/-- Run-time panics of the program: `panic(err)` with an error value, a nil
pointer dereference, and an index out of range. -/
inductive Panic where
  | error (e : GoError)
  | nilDereference
  | indexOutOfRange (index len : Nat)
deriving DecidableEq, Repr

/-- The two ways a run stops early: `os.Exit(code)` and a panic. -/
inductive Stop where
  | exit (code : Nat)
  | panic (p : Panic)
deriving DecidableEq, Repr

/-! ## The client library: queries and responses -/

/-- An index handle (`*pilosa.Index`), known by its name. -/
structure Index where
  name : GoString
deriving DecidableEq, Repr

/-- A frame handle (`*pilosa.Frame`): a named frame of an index. -/
structure Frame where
  index : Index
  name : GoString
deriving DecidableEq, Repr

/-- The query values the program builds: `frame.Bitmap(row)`, `frame.TopN(n)`,
`frame.SetBit(row, column)` and the variadic `index.Intersect(...)`,
`index.Union(...)`. -/
inductive PQLQuery where
  | Bitmap (frame : Frame) (rowID : Nat)
  | TopN (frame : Frame) (n : Nat)
  | SetBit (frame : Frame) (rowID columnID : Nat)
  | Intersect (index : Index) (bitmaps : List PQLQuery)
  | Union (index : Index) (bitmaps : List PQLQuery)

/-- Go `pilosa.BitmapResult`: the field `Bits` the program reads. -/
structure BitmapResult where
  Bits : List Nat
deriving DecidableEq, Repr

/-- Go `pilosa.CountResultItem`. -/
structure CountResultItem where
  ID : Nat
  Count : Nat
deriving DecidableEq, Repr

/-- Go `pilosa.QueryResult`: `Bitmap` is a pointer, `CountItems` a slice of
pointers.  The library fills both fields whatever the query was. -/
structure QueryResult where
  Bitmap : Option BitmapResult
  CountItems : List (Option CountResultItem)
deriving DecidableEq, Repr

/-- Go `pilosa.QueryResponse`, reduced to what `Result()` returns: the first
result, or nil when the response holds none. -/
structure QueryResponse where
  result : Option QueryResult
deriving DecidableEq, Repr

/-- A client (`*pilosa.Client`) as the program sees it.  `Schema` is the error
of `client.Schema()` (the schema value itself is only a handle).  `Query` is
the pair `client.Query(q, nil)` returns; it may depend on the queries sent
earlier on this client (first argument, oldest first). -/
structure Client where
  Schema : Option GoError
  Query : List PQLQuery → PQLQuery → Option QueryResponse × Option GoError

/-- Go `*pilosa.URI`, a handle produced by `pilosa.NewURIFromAddress`. -/
structure URI where
  address : GoString
deriving DecidableEq, Repr

/-! ## Files and the line scanner -/

/-- An opened file: the bytes its reads deliver, and the error that ends the
stream when it is not `io.EOF`. -/
structure File where
  data : List UInt8
  readErr : Option GoError
deriving DecidableEq, Repr

/-- What lies outside the program: `path.Join` (on two elements), `os.Open`,
`pilosa.NewURIFromAddress` and `pilosa.NewClientWithURI`. -/
structure Env where
  Join : GoString → GoString → GoString
  Open : GoString → Except GoError File
  NewURIFromAddress : GoString → Option URI × Option GoError
  NewClientWithURI : Option URI → Client

/-- Go `bufio.MaxScanTokenSize`: the buffer of a `bufio.Scanner` never grows
beyond this size. -/
def MaxScanTokenSize : Nat := 64 * 1024

/-- Go `bytes.IndexByte`: position of the first `c` in `data`. -/
def IndexByte : List UInt8 → UInt8 → Option Nat
  | [], _ => none
  | b :: rest, c => if b = c then some 0 else (IndexByte rest c).map (· + 1)

/-- Go `dropCR` of package `bufio`: drops one terminal carriage return. -/
def dropCR (data : List UInt8) : List UInt8 :=
  if data.getLast? = some 13 then data.dropLast else data

/-- Go `bufio.ScanLines`: `some (advance, token)` when a line is found, `none`
for "request more data" (`0, nil, nil`). -/
def ScanLines (data : List UInt8) (atEOF : Bool) : Option (Nat × List UInt8) :=
  if atEOF && data.isEmpty then none
  else match IndexByte data 10 with
    | some i => some (i + 1, dropCR (data.take i))
    | none => if atEOF then some (data.length, dropCR data) else none

/-- The sticky error of a scanner (`scanner.Err()`). -/
inductive ScanErr where
  | tooLong
  | read (e : GoError)
deriving DecidableEq, Repr

/-- A `bufio.Scanner` over a stream: the bytes not yet consumed, how the
stream ends, the last token and the recorded error. -/
structure Scanner where
  src : List UInt8
  srcErr : Option GoError
  tok : List UInt8
  err : Option ScanErr
deriving DecidableEq, Repr

/-- Go `bufio.NewScanner(bufio.NewReader(f))`. -/
def NewScanner (f : File) : Scanner := ⟨f.data, f.readErr, [], none⟩

/-- Go `scanner.Text()`. -/
def Scanner.Text (s : Scanner) : GoString := s.tok

/-- One call of `scanner.Scan()`, up to the first call that returns false.
The scanner buffers at most `MaxScanTokenSize` unconsumed bytes.  The split
function sees the buffered bytes: a line that ends inside them is the next
token.  Otherwise, when the buffer is full, scanning stops with
`ErrTooLong`; when the stream has ended (by EOF or by a read error, which the
scanner treats alike and records), the split function gets the rest with
`atEOF = true`. -/
def Scanner.Scan (s : Scanner) : Bool × Scanner :=
  match ScanLines (s.src.take MaxScanTokenSize) false with
  | some (advance, token) => (true, { s with src := s.src.drop advance, tok := token })
  | none =>
    if MaxScanTokenSize ≤ s.src.length then
      (false, { s with tok := [], err := some ScanErr.tooLong })
    else
      match ScanLines s.src true with
      | some (advance, token) =>
        (true, { s with src := s.src.drop advance, tok := token, err := s.srcErr.map ScanErr.read })
      | none => (false, { s with tok := [], err := s.srcErr.map ScanErr.read })

/-- The loop `for scanner.Scan() { languageNames = append(languageNames, scanner.Text()) }`.
Every successful `Scan` consumes at least one byte, so `fuel` larger than the
number of unconsumed bytes is never exhausted (`scanLoop_fuel`). -/
def scanLoop : Nat → Scanner → List GoString → List GoString × Scanner
  | 0, s, languageNames => (languageNames, s)
  | fuel + 1, s, languageNames =>
    match s.Scan with
    | (true, s1) => scanLoop fuel s1 (languageNames ++ [s1.Text])
    | (false, s1) => (languageNames, s1)

/-! ## Runs: effects in program order -/

/-- The observable effects of the program. -/
inductive Event where
  | stdout (s : GoString)
  | newURI (address : GoString)
  | newClient (uri : Option URI)
  | openFile (name : GoString)
  | schema
  | query (q : PQLQuery)

/-- The state of a run: the events so far, and either a value or the reason
the run stopped. -/
structure Outcome (α : Type) where
  trace : List Event
  result : Except Stop α

/-- A piece of program: from the events so far to the outcome. -/
def Prog (α : Type) : Type := List Event → Outcome α

/-- Returning a value has no effect. -/
def Prog.pure {α : Type} (a : α) : Prog α := fun t => ⟨t, .ok a⟩

/-- Sequencing: a stopped run stays stopped. -/
def Prog.bind {α β : Type} (m : Prog α) (f : α → Prog β) : Prog β := fun t =>
  match m t with
  | ⟨t1, .ok a⟩ => f a t1
  | ⟨t1, .error e⟩ => ⟨t1, .error e⟩

instance : Monad Prog where
  pure := Prog.pure
  bind := Prog.bind

/-- Records one event. -/
def emit (e : Event) : Prog Unit := fun t => ⟨t ++ [e], .ok ()⟩

/-- Stops the run. -/
def stop {α : Type} (s : Stop) : Prog α := fun t => ⟨t, .error s⟩

/-- The Go builtin `panic(err)`. -/
def goPanic {α : Type} (err : GoError) : Prog α := stop (.panic (.error err))

/-- An expression that may panic, evaluated inside a run. -/
def eval {α : Type} (x : Except Panic α) : Prog α :=
  match x with
  | .ok a => Prog.pure a
  | .error p => stop (.panic p)

/-- The queries sent so far, oldest first. -/
def sentQueries : List Event → List PQLQuery
  | [] => []
  | .query q :: rest => q :: sentQueries rest
  | _ :: rest => sentQueries rest

/-- What has been written to standard output so far, one entry per call. -/
def printed : List Event → List GoString
  | [] => []
  | .stdout s :: rest => s :: printed rest
  | _ :: rest => printed rest

/-- Go `fmt.Println(s)`. -/
def Println (s : GoString) : Prog Unit := emit (.stdout (s ++ str "\n"))

/-- Go `client.Schema()`, reduced to its error. -/
def Client.callSchema (client : Client) : Prog (Option GoError) := fun t =>
  ⟨t ++ [.schema], .ok client.Schema⟩

/-- Go `client.Query(q, nil)`. -/
def Client.callQuery (client : Client) (q : PQLQuery) :
    Prog (Option QueryResponse × Option GoError) := fun t =>
  ⟨t ++ [.query q], .ok (client.Query (sentQueries t) q)⟩

/-- Go `schema.Index(name, nil)`; the program discards its error. -/
def schemaIndex (name : GoString) : Index := ⟨name⟩

/-- Go `index.Frame(name, nil)`; the program discards its error. -/
def Index.Frame (index : Index) (name : GoString) : Frame := ⟨index, name⟩

/-- Go `frame.Bitmap(rowID)`. -/
def Frame.Bitmap (frame : Frame) (rowID : Nat) : PQLQuery := .Bitmap frame rowID

/-- Go `frame.TopN(n)`. -/
def Frame.TopN (frame : Frame) (n : Nat) : PQLQuery := .TopN frame n

/-- Go `frame.SetBit(rowID, columnID)`. -/
def Frame.SetBit (frame : Frame) (rowID columnID : Nat) : PQLQuery :=
  .SetBit frame rowID columnID

/-- Go `index.Intersect(bitmaps...)`. -/
def Index.Intersect (index : Index) (bitmaps : List PQLQuery) : PQLQuery :=
  .Intersect index bitmaps

/-- Go `index.Union(bitmaps...)`. -/
def Index.Union (index : Index) (bitmaps : List PQLQuery) : PQLQuery :=
  .Union index bitmaps

/-- Go `response.Result()` on a `*QueryResponse`: the method reads the receiver,
so a nil response panics. -/
def Result (response : Option QueryResponse) : Except Panic (Option QueryResult) :=
  match response with
  | none => .error .nilDereference
  | some r => .ok r.result

/-- The expression `response.Result().Bitmap.Bits`. -/
def resultBits (response : Option QueryResponse) : Except Panic (List Nat) :=
  match Result response with
  | .error p => .error p
  | .ok none => .error .nilDereference
  | .ok (some result) =>
    match result.Bitmap with
    | none => .error .nilDereference
    | some bitmap => .ok bitmap.Bits

/-- The expression `response.Result().CountItems`. -/
def resultCountItems (response : Option QueryResponse) :
    Except Panic (List (Option CountResultItem)) :=
  match Result response with
  | .error p => .error p
  | .ok none => .error .nilDereference
  | .ok (some result) => .ok result.CountItems

/-! ## The program -/

/-- Go `checkErr`. -/
def checkErr (err : Option GoError) : Prog Unit :=
  match err with
  | some e => goPanic e
  | none => Prog.pure ()

/-- The line `fmt.Printf("\t%d. %d\n", i+1, id)` of `printIDs`. -/
def idLine (i id : Nat) : GoString :=
  str "\t" ++ itoa (i + 1) ++ str ". " ++ itoa id ++ str "\n"

/-- Go `printIDs`, from loop index `i` on. -/
def printIDsFrom : Nat → List Nat → Prog Unit
  | _, [] => Prog.pure ()
  | i, id :: rest => Prog.bind (emit (.stdout (idLine i id))) fun _ => printIDsFrom (i + 1) rest

/-- Go `printIDs`. -/
def printIDs (ids : List Nat) : Prog Unit := printIDsFrom 0 ids

/-- The line `fmt.Printf("\t%d. %s (%d stars)\n", i+1, name, count)` of
`printTopNLanguages`. -/
def languageLine (i : Nat) (name : GoString) (count : Nat) : GoString :=
  str "\t" ++ itoa (i + 1) ++ str ". " ++ name ++ str " (" ++ itoa count ++ str " stars)\n"

/-- The index expression `languageNames[id]`. -/
def indexName (languageNames : List GoString) (id : Nat) : Except Panic GoString :=
  match languageNames[id]? with
  | some name => .ok name
  | none => .error (.indexOutOfRange id languageNames.length)

/-- Go `printTopNLanguages`, from loop index `i` on.  The arguments of `Printf`
are evaluated first: `item.ID` (a nil item panics), the index expression,
`item.Count`. -/
def printTopNLanguagesFrom :
    Nat → List (Option CountResultItem) → List GoString → Prog Unit
  | _, [], _ => Prog.pure ()
  | _, none :: _, _ => stop (.panic .nilDereference)
  | i, some item :: rest, languageNames =>
    Prog.bind (eval (indexName languageNames item.ID)) fun name =>
    Prog.bind (emit (.stdout (languageLine i name item.Count))) fun _ =>
    printTopNLanguagesFrom (i + 1) rest languageNames

/-- Go `printTopNLanguages`. -/
def printTopNLanguages (items : List (Option CountResultItem))
    (languageNames : List GoString) : Prog Unit :=
  printTopNLanguagesFrom 0 items languageNames

/-- Go `loadLanguageNames`.  The result is the Go pair: a slice (`none` is the
nil slice) and an error.  The error of the scanner is never consulted, and
the deferred `f.Close()` has no effect that the program observes. -/
def loadLanguageNames (env : Env) (datasetPath : GoString) :
    Prog (Option (List GoString) × Option GoError) := do
  let languageNames : List GoString := []
  let path := env.Join datasetPath (str "languages.txt")
  emit (.openFile path)
  match env.Open path with
  | .error err => return (none, some err)
  | .ok f =>
    let scanner := NewScanner f
    return (some (scanLoop (f.data.length + 1) scanner languageNames).1, none)

/-- Go `runQueries`.  The variable `err` is assigned by every `client.Query`
call; `checkErr(err)` follows the first and the last call only. -/
def runQueries (client : Client) (languageNames : List GoString) : Prog Unit := do
  let err ← client.callSchema
  match err with
  | some e => goPanic e
  | none => pure ()
  let repository := schemaIndex (str "repository")
  let stargazer := repository.Frame (str "stargazer")
  let language := repository.Frame (str "language")
  -- Which repositories did user 14 star:
  let (response, err) ← client.callQuery (stargazer.Bitmap 14)
  checkErr err
  let repositoryIDs ← eval (resultBits response)
  Println (str "User 14 starred:")
  printIDs repositoryIDs
  Println (str "")
  -- What are the top 5 languages in the sample data:
  let (response, _) ← client.callQuery (language.TopN 5)
  let languages ← eval (resultCountItems response)
  Println (str "Top Languages:")
  printTopNLanguages languages languageNames
  Println (str "")
  -- Which repositories were starred by both user 14 and 19:
  let query := repository.Intersect [stargazer.Bitmap 14, stargazer.Bitmap 19]
  let (response, _) ← client.callQuery query
  let repositoryIDs ← eval (resultBits response)
  Println (str "Both user 14 and 19 starred:")
  printIDs repositoryIDs
  Println (str "")
  -- Which repositories were starred by either user 14 or 19:
  let query := repository.Union [stargazer.Bitmap 14, stargazer.Bitmap 19]
  let (response, _) ← client.callQuery query
  let repositoryIDs ← eval (resultBits response)
  Println (str "User 14 or 19 starred:")
  printIDs repositoryIDs
  Println (str "")
  -- Which repositories were starred by user 14 or 19 and were written in language 1:
  let query := repository.Intersect
    [repository.Union [stargazer.Bitmap 14, stargazer.Bitmap 19], language.Bitmap 1]
  let (response, _) ← client.callQuery query
  let repositoryIDs ← eval (resultBits response)
  Println (str "User 14 or 19 starred, written in language 1:")
  printIDs repositoryIDs
  Println (str "")
  -- Set user 99999 as a stargazer for repository 77777:
  let (_, err) ← client.callQuery (stargazer.SetBit 99999 77777)
  checkErr err
  emit (.stdout (str "Set user 99999 as a stargazer for repository 77777\n\n"))

/-- The usage line of `main`, as `fmt.Println` writes it. -/
def usageLine : GoString :=
  str "Usage: go run startrace.go PATH_TO_DATASET [PILOSA_ADDRESS]" ++ str "\n"

/-- Go `main`, with `os.Args` as `args`.  A nil `languageNames` is the empty
slice for `runQueries`. -/
def main (env : Env) (args : List GoString) : Prog Unit := do
  if h : args.length < 2 then
    emit (.stdout usageLine)
    stop (.exit 1)
  else
    let datasetPath := args[1]
    let address := if h2 : args.length > 2 then args[2] else str ":10101"
    emit (.newURI address)
    let (uri, err) := env.NewURIFromAddress address
    checkErr err
    emit (.newClient uri)
    let client := env.NewClientWithURI uri
    let (languageNames, err) ← loadLanguageNames env datasetPath
    checkErr err
    runQueries client (languageNames.getD [])

/-! ## Notions used in the statements -/

/-- The bytes of a file made of the given lines, each followed by a newline. -/
def linesFile (L : List GoString) : List UInt8 := L.flatMap fun l => l ++ [10]

/-- Every line is free of newlines, does not end in a carriage return and is
shorter than the token limit of the scanner. -/
def PlainLines (L : List GoString) : Prop :=
  ∀ l ∈ L, (10 : UInt8) ∉ l ∧ l.getLast? ≠ some 13 ∧ l.length < MaxScanTokenSize

/-- Whether a query is a `Union`. -/
def PQLQuery.isUnion : PQLQuery → Bool
  | .Union _ _ => true
  | _ => false

/-- The answers of the sample server: rows 14 and 19 of `stargazer` hold
{1,2,3} and {2,3,4}, and the top languages are 0 (5 stars) and 1 (3 stars). -/
def sampleResult : PQLQuery → QueryResult
  | .Bitmap _ rowID => ⟨some ⟨if rowID = 14 then [1, 2, 3] else [2, 3, 4]⟩, []⟩
  | .TopN _ _ => ⟨some ⟨[]⟩, [some ⟨0, 5⟩, some ⟨1, 3⟩]⟩
  | .SetBit _ _ _ => ⟨some ⟨[]⟩, []⟩
  | .Intersect _ qs => ⟨some ⟨if qs.any PQLQuery.isUnion then [2] else [2, 3]⟩, []⟩
  | .Union _ _ => ⟨some ⟨[1, 2, 3, 4]⟩, []⟩

/-- A sample client: every call succeeds with the answer of `sampleResult`. -/
def sampleClient : Client where
  Schema := none
  Query := fun _ q => (some ⟨some (sampleResult q)⟩, none)

/-- The client `base`, except that its call number `k` (counted from 0) gets
`reply`. -/
def withReply (base : Client) (k : Nat) (reply : Option QueryResponse × Option GoError) :
    Client where
  Schema := base.Schema
  Query := fun sent q => if sent.length = k then reply else base.Query sent q

/-- A sample environment: `data/languages.txt` holds the lines `Go` and `C`,
`long/languages.txt` holds the line `Go` followed by 65536 bytes without a
newline, reading `torn/languages.txt` fails after the line `Go`,
`frag/languages.txt` holds the lines `Go` and `Rust` but reading it fails
after five bytes (inside the second line), `crlf/languages.txt` holds the
lines `Go` and `C` with Windows line ends and reading it fails after the
first byte of the second line end, and no other file exists.  Every address parses, and every client is `sampleClient`. -/
def sampleEnv : Env where
  Join := fun a b => a ++ str "/" ++ b
  Open := fun p =>
    if p = str "data/languages.txt" then .ok ⟨linesFile [str "Go", str "C"], none⟩
    else if p = str "long/languages.txt" then
      .ok ⟨linesFile [str "Go"] ++ List.replicate 65536 97, none⟩
    else if p = str "torn/languages.txt" then
      .ok ⟨linesFile [str "Go"], some ⟨str "input/output error"⟩⟩
    else if p = str "frag/languages.txt" then
      .ok ⟨(linesFile [str "Go", str "Rust"]).take 5, some ⟨str "input/output error"⟩⟩
    else if p = str "crlf/languages.txt" then
      .ok ⟨(linesFile [str "Go\r", str "C\r"]).take 6, some ⟨str "input/output error"⟩⟩
    else .error ⟨str "no such file or directory"⟩
  NewURIFromAddress := fun a => (some ⟨a⟩, none)
  NewClientWithURI := fun _ => sampleClient

/-- Every line is free of newlines and shorter than the token limit of the
scanner; a line may end in a carriage return. -/
def ShortLines (L : List GoString) : Prop :=
  ∀ l ∈ L, (10 : UInt8) ∉ l ∧ l.length < MaxScanTokenSize

/-- The handle `repository` of `runQueries`. -/
def repository : Index := schemaIndex (str "repository")

/-- The handle `stargazer` of `runQueries`. -/
def stargazer : Frame := repository.Frame (str "stargazer")

/-- The handle `language` of `runQueries`. -/
def language : Frame := repository.Frame (str "language")

/-- The six queries of the sample session, in the order of the source text. -/
def sessionQueries : List PQLQuery :=
  [ .Bitmap stargazer 14,
    .TopN language 5,
    .Intersect repository [.Bitmap stargazer 14, .Bitmap stargazer 19],
    .Union repository [.Bitmap stargazer 14, .Bitmap stargazer 19],
    .Intersect repository
      [.Union repository [.Bitmap stargazer 14, .Bitmap stargazer 19], .Bitmap language 1],
    .SetBit stargazer 99999 77777 ]

/-- A query is a mutation when it writes to the index: `SetBit`. -/
def PQLQuery.isMutation : PQLQuery → Bool
  | .SetBit _ _ _ => true
  | _ => false

/-- Every call of the client succeeds: it returns a nil error. -/
def Client.Succeeds (client : Client) : Prop :=
  client.Schema = none ∧ ∀ sent q, (client.Query sent q).2 = none

/-- Every reply can be read the way `runQueries` reads it: a reply to a
`Bitmap`, `Intersect` or `Union` query carries a result with a bitmap, and a
reply to a `TopN` query carries a result whose items are non-nil and have an
ID below `n`. -/
def Client.Decodes (client : Client) (n : Nat) : Prop :=
  (∀ sent frame rowID, ∃ bits,
    resultBits (client.Query sent (.Bitmap frame rowID)).1 = .ok bits) ∧
  (∀ sent index qs, ∃ bits,
    resultBits (client.Query sent (.Intersect index qs)).1 = .ok bits) ∧
  (∀ sent index qs, ∃ bits,
    resultBits (client.Query sent (.Union index qs)).1 = .ok bits) ∧
  (∀ sent frame k, ∃ items : List CountResultItem,
    resultCountItems (client.Query sent (.TopN frame k)).1 = .ok (items.map some) ∧
    ∀ it ∈ items, it.ID < n)

/-- The events of the lines `printIDs` writes for `ids`. -/
def idLines (ids : List Nat) : List Event :=
  (ids.enumFrom 0).map fun p => Event.stdout (idLine p.1 p.2)

/-- The events of the lines `printTopNLanguages` writes for `items` when every
ID has a label. -/
def languageLines (items : List CountResultItem) (languageNames : List GoString) : List Event :=
  (items.enumFrom 0).map fun p =>
    Event.stdout (languageLine p.1 (languageNames.getD p.2.ID []) p.2.Count)

/-- The events of a complete session: the answers are the ID lists `b1`, `b3`,
`b4`, `b5` and the ranked list `items`. -/
def sessionTrace (languageNames : List GoString) (b1 : List Nat)
    (items : List CountResultItem) (b3 b4 b5 : List Nat) : List Event :=
  [.schema, .query (.Bitmap stargazer 14), .stdout (str "User 14 starred:\n")]
    ++ idLines b1
    ++ [.stdout (str "\n"), .query (.TopN language 5), .stdout (str "Top Languages:\n")]
    ++ languageLines items languageNames
    ++ [.stdout (str "\n"),
        .query (.Intersect repository [.Bitmap stargazer 14, .Bitmap stargazer 19]),
        .stdout (str "Both user 14 and 19 starred:\n")]
    ++ idLines b3
    ++ [.stdout (str "\n"),
        .query (.Union repository [.Bitmap stargazer 14, .Bitmap stargazer 19]),
        .stdout (str "User 14 or 19 starred:\n")]
    ++ idLines b4
    ++ [.stdout (str "\n"),
        .query (.Intersect repository
          [.Union repository [.Bitmap stargazer 14, .Bitmap stargazer 19], .Bitmap language 1]),
        .stdout (str "User 14 or 19 starred, written in language 1:\n")]
    ++ idLines b5
    ++ [.stdout (str "\n"), .query (.SetBit stargazer 99999 77777),
        .stdout (str "Set user 99999 as a stargazer for repository 77777\n\n")]

mutual
/-- Modelled from the spec: the server that evaluates a query is not part of
the repository.  The result set of a bitmap query under set semantics, over
the rows `data frame rowID` of the index: `Bitmap` is the row, `Intersect` and
`Union` are the intersection and the union of the results of all children
(at least one child is required).  `TopN` and `SetBit` have no result set. -/
def evalQuery (data : Frame → Nat → Finset Nat) : PQLQuery → Option (Finset Nat)
  | .Bitmap frame rowID => some (data frame rowID)
  | .Intersect _ qs => evalIntersect data qs
  | .Union _ qs => evalUnion data qs
  | .TopN _ _ => none
  | .SetBit _ _ _ => none
/-- Modelled from the spec: the intersection of the result sets of all
children of an `Intersect`; with one child, the result of that child. -/
def evalIntersect (data : Frame → Nat → Finset Nat) : List PQLQuery → Option (Finset Nat)
  | [] => none
  | [q] => evalQuery data q
  | q :: q2 :: qs =>
    match evalQuery data q, evalIntersect data (q2 :: qs) with
    | some a, some b => some (a ∩ b)
    | _, _ => none
/-- Modelled from the spec: the union of the result sets of all children of a
`Union`; with one child, the result of that child. -/
def evalUnion (data : Frame → Nat → Finset Nat) : List PQLQuery → Option (Finset Nat)
  | [] => none
  | [q] => evalQuery data q
  | q :: q2 :: qs =>
    match evalQuery data q, evalUnion data (q2 :: qs) with
    | some a, some b => some (a ∪ b)
    | _, _ => none
end

/-- The fixture of the scenario: in `stargazer`, row 14 holds {1,2,3} and row
19 holds {2,3,4}; in `language`, row 1 holds {2,4}. -/
def fixture (frame : Frame) (rowID : Nat) : Finset Nat :=
  if frame = stargazer then
    if rowID = 14 then {1, 2, 3} else if rowID = 19 then {2, 3, 4} else ∅
  else if frame = language ∧ rowID = 1 then {2, 4} else ∅

/-! # Theorems -/

/-! ## The line scanner -/

theorem IndexByte_eq_none {l : List UInt8} {c : UInt8} (h : c ∉ l) : IndexByte l c = none := by
  induction l with
  | nil => rfl
  | cons b rest ih =>
    simp only [List.mem_cons, not_or] at h
    have hb : ¬ b = c := fun hbc => h.1 hbc.symm
    simp [IndexByte, hb, ih h.2]

theorem IndexByte_append_cons {l : List UInt8} {c : UInt8} (h : c ∉ l) (rest : List UInt8) :
    IndexByte (l ++ c :: rest) c = some l.length := by
  induction l with
  | nil => simp [IndexByte]
  | cons b tl ih =>
    simp only [List.mem_cons, not_or] at h
    have hb : ¬ b = c := fun hbc => h.1 hbc.symm
    simp [IndexByte, hb, ih h.2]

theorem IndexByte_lt {l : List UInt8} {c : UInt8} {i : Nat} (h : IndexByte l c = some i) :
    i < l.length := by
  induction l generalizing i with
  | nil => simp [IndexByte] at h
  | cons b tl ih =>
    simp only [IndexByte] at h
    split at h
    · simp at h; subst h; simp
    · cases hr : IndexByte tl c with
      | none => simp [hr] at h
      | some j =>
        simp [hr] at h
        subst h
        have := ih hr
        simp; omega

theorem dropCR_eq {l : List UInt8} (h : l.getLast? ≠ some 13) : dropCR l = l := by
  simp [dropCR, h]

theorem take_line {l : List UInt8} (hl : l.length < MaxScanTokenSize) (rest : List UInt8) :
    (l ++ 10 :: rest).take MaxScanTokenSize
      = l ++ 10 :: rest.take (MaxScanTokenSize - l.length - 1) := by
  rw [List.take_append_eq_append_take, List.take_of_length_le (Nat.le_of_lt hl)]
  obtain ⟨k, hk⟩ : ∃ k, MaxScanTokenSize - l.length = k + 1 := ⟨MaxScanTokenSize - l.length - 1, by omega⟩
  rw [hk, List.take_succ_cons]
  simp

theorem Scan_line {l : List UInt8} (h10 : (10 : UInt8) ∉ l)
    (hl : l.length < MaxScanTokenSize) (rest : List UInt8) (e : Option GoError)
    (tok : List UInt8) (err : Option ScanErr) :
    Scanner.Scan ⟨l ++ 10 :: rest, e, tok, err⟩ = (true, ⟨rest, e, dropCR l, err⟩) := by
  simp [Scanner.Scan, ScanLines, take_line hl, IndexByte_append_cons h10]


theorem Scan_empty (e : Option GoError) (tok : List UInt8) (err : Option ScanErr) :
    Scanner.Scan ⟨[], e, tok, err⟩ = (false, ⟨[], e, [], e.map ScanErr.read⟩) := by
  simp [Scanner.Scan, ScanLines, IndexByte, MaxScanTokenSize]

theorem Scan_tooLong {bad : List UInt8} (h10 : (10 : UInt8) ∉ bad.take MaxScanTokenSize)
    (hl : MaxScanTokenSize ≤ bad.length) (e : Option GoError)
    (tok : List UInt8) (err : Option ScanErr) :
    Scanner.Scan ⟨bad, e, tok, err⟩ = (false, ⟨bad, e, [], some ScanErr.tooLong⟩) := by
  simp [Scanner.Scan, ScanLines, IndexByte_eq_none h10, hl]

theorem Scan_final {l : List UInt8} (h10 : (10 : UInt8) ∉ l) (hne : l ≠ [])
    (hl : l.length < MaxScanTokenSize) (e : Option GoError)
    (tok : List UInt8) (err : Option ScanErr) :
    Scanner.Scan ⟨l, e, tok, err⟩ = (true, ⟨[], e, dropCR l, e.map ScanErr.read⟩) := by
  have h1 : IndexByte (l.take MaxScanTokenSize) 10 = none :=
    IndexByte_eq_none fun h => h10 (List.mem_of_mem_take h)
  have h2 : ¬ MaxScanTokenSize ≤ l.length := Nat.not_le_of_lt hl
  simp [Scanner.Scan, ScanLines, h1, h2, IndexByte_eq_none h10, hne]

theorem Scan_true_lt {s s1 : Scanner} (h : s.Scan = (true, s1)) :
    s1.src.length < s.src.length := by
  unfold Scanner.Scan at h
  have key : ∀ (d : List UInt8) (b : Bool) (a : Nat) (t : List UInt8),
      ScanLines d b = some (a, t) → 0 < a ∧ 0 < d.length := by
    intro d b a t hs
    unfold ScanLines at hs
    split at hs
    · simp at hs
    · split at hs
      · rename_i i hi
        simp at hs
        have := IndexByte_lt hi
        omega
      · split at hs
        · rename_i hne _ _
          simp at hs
          have : d ≠ [] := by
            intro hd; subst hd; simp_all
          have := List.length_pos.mpr this
          omega
        · simp at hs
  split at h
  · rename_i a t hs
    have := key _ _ _ _ hs
    simp at h
    rw [← h]
    simp at this ⊢
    omega
  · split at h
    · simp at h
    · split at h
      · rename_i a t hs
        have := key _ _ _ _ hs
        simp at h
        rw [← h]
        simp
        omega
      · simp at h

theorem scanLoop_fuel : ∀ (n m : Nat) (s : Scanner) (acc : List GoString),
    s.src.length < n → s.src.length < m → scanLoop n s acc = scanLoop m s acc := by
  intro n
  induction n with
  | zero => intro m s acc h; omega
  | succ n ih =>
    intro m s acc hn hm
    cases m with
    | zero => omega
    | succ m =>
      simp only [scanLoop]
      rcases hs : s.Scan with ⟨b, s1⟩
      cases b with
      | false => rfl
      | true =>
        have := Scan_true_lt hs
        exact ih m s1 _ (by omega) (by omega)

theorem length_linesFile_ge (L : List GoString) : L.length ≤ (linesFile L).length := by
  induction L with
  | nil => simp [linesFile]
  | cons l L ih =>
    simp only [linesFile, List.flatMap_cons, List.length_append, List.length_cons] at ih ⊢
    omega

theorem plainLines_short {L : List GoString} (hL : PlainLines L) : ShortLines L :=
  fun l hl => ⟨(hL l hl).1, (hL l hl).2.2⟩

theorem map_dropCR_of_plain {L : List GoString} (hL : PlainLines L) : L.map dropCR = L := by
  induction L with
  | nil => rfl
  | cons l L ih =>
    rw [List.map_cons, dropCR_eq (hL l (List.mem_cons_self _ _)).2.1,
      ih fun x hx => hL x (List.mem_cons_of_mem _ hx)]

theorem scanLoop_lines (L : List GoString)
    (hL : ShortLines L) :
    ∀ (n : Nat) (tail : List UInt8) (e : Option GoError) (tok : List UInt8)
      (err : Option ScanErr) (acc : List GoString),
      scanLoop (L.length + n) ⟨linesFile L ++ tail, e, tok, err⟩ acc
        = scanLoop n ⟨tail, e, (L.map dropCR).getLast?.getD tok, err⟩
            (acc ++ L.map dropCR) := by
  induction L with
  | nil => intro n tail e tok err acc; simp [linesFile]
  | cons l L ih =>
    intro n tail e tok err acc
    have hl := hL l (List.mem_cons_self _ _)
    have hrest : ShortLines L :=
      fun x hx => hL x (List.mem_cons_of_mem _ hx)
    have e1 : (l :: L).length + n = (L.length + n) + 1 := by simp; omega
    have e2 : linesFile (l :: L) ++ tail = l ++ 10 :: (linesFile L ++ tail) := by
      simp [linesFile]
    rw [e1, e2, scanLoop, Scan_line hl.1 hl.2]
    simp only [Scanner.Text]
    rw [ih hrest]
    congr 1
    · cases L with
      | nil => simp
      | cons x xs => simp [List.getLast?_eq_getLast]
    · simp

theorem scanLoop_linesFile (L : List GoString)
    (hL : ShortLines L)
    (tail : List UInt8) (e : Option GoError) :
    scanLoop ((linesFile L ++ tail).length + 1) (NewScanner ⟨linesFile L ++ tail, e⟩) []
      = scanLoop (tail.length + 1) ⟨tail, e, (L.map dropCR).getLast?.getD [], none⟩
          (L.map dropCR) := by
  have hlen := length_linesFile_ge L
  have h := scanLoop_lines L hL ((linesFile L ++ tail).length + 1 - L.length) tail e [] none []
  have e1 : L.length + ((linesFile L ++ tail).length + 1 - L.length)
      = (linesFile L ++ tail).length + 1 := by
    simp only [List.length_append]; omega
  rw [e1] at h
  rw [NewScanner, h, List.nil_append]
  apply scanLoop_fuel
  · simp only [List.length_append]; omega
  · simp

theorem loadLanguageNames_eq (env : Env) (datasetPath : GoString) (t : List Event) :
    loadLanguageNames env datasetPath t
      = ⟨t ++ [.openFile (env.Join datasetPath (str "languages.txt"))],
          match env.Open (env.Join datasetPath (str "languages.txt")) with
          | .error err => .ok (none, some err)
          | .ok f => .ok (some (scanLoop (f.data.length + 1) (NewScanner f) []).1, none)⟩ := by
  simp only [loadLanguageNames, bind, Prog.bind, emit, pure, Prog.pure]
  cases env.Open (env.Join datasetPath (str "languages.txt")) <;> rfl

/-- C5: when `languages.txt` in the dataset directory consists of the lines `L`,
each followed by a newline (no line holding a newline, ending in a carriage
return or reaching the 64 KiB token limit), `loadLanguageNames` returns
`(L, nil)`: the same lines in the same order, with no extra element for the
final newline. -/
theorem loadLanguageNames_returns_lines (env : Env) (datasetPath : GoString)
    (L : List GoString) (t : List Event)
    (hL : PlainLines L)
    (hfile : env.Open (env.Join datasetPath (str "languages.txt")) = .ok ⟨linesFile L, none⟩) :
    (loadLanguageNames env datasetPath t).result = .ok (some L, none) := by
  rw [loadLanguageNames_eq, hfile]
  have h := scanLoop_linesFile L (plainLines_short hL) [] none
  simp only [List.append_nil, map_dropCR_of_plain hL] at h
  dsimp only
  rw [h]
  simp [scanLoop, Scan_empty]


theorem plainLines_sample : PlainLines [str "Go", str "C"] := by
  intro l hl
  simp only [List.mem_cons, List.mem_singleton, List.not_mem_nil, or_false] at hl
  rcases hl with rfl | rfl <;> decide

theorem plainLines_single : PlainLines [str "Go"] := by
  intro l hl
  simp only [List.mem_singleton] at hl
  subst hl
  decide

/-- Witness of C5 on the sample environment: the file holds `Go` and `C`. -/
theorem loadLanguageNames_returns_lines_witness :
    PlainLines [str "Go", str "C"] ∧
    sampleEnv.Open (sampleEnv.Join (str "data") (str "languages.txt"))
      = .ok ⟨linesFile [str "Go", str "C"], none⟩ ∧
    (loadLanguageNames sampleEnv (str "data") []).result
      = .ok (some [str "Go", str "C"], none) :=
  ⟨plainLines_sample, rfl,
    loadLanguageNames_returns_lines sampleEnv (str "data") [str "Go", str "C"] []
      plainLines_sample rfl⟩

theorem shortLines_crlf : ShortLines [str "Go\r"] := by
  intro l hl
  simp only [List.mem_singleton] at hl
  subst hl
  decide

/-- C9 as stated fails in its last clause: `languages.txt` holds the lines
`Go` and `Rust`, and reading it fails after five bytes.  The file opens, so a
nil error is returned, but the list returned is `Go`, `Ru`: it ends in a
fragment that is no line of the file, and it is not an initial segment of the
lines of the file. -/
theorem loadLanguageNames_scanned_lines_counterexample :
    sampleEnv.Open (sampleEnv.Join (str "frag") (str "languages.txt"))
      = .ok ⟨(linesFile [str "Go", str "Rust"]).take 5, some ⟨str "input/output error"⟩⟩ ∧
    (loadLanguageNames sampleEnv (str "frag") []).result
      = .ok (some [str "Go", str "Ru"], none) ∧
    ¬ [str "Go", str "Ru"] <+: [str "Go", str "Rust"] ∧
    str "Ru" ∉ [str "Go", str "Rust"] :=
  ⟨rfl, rfl, by decide, by decide⟩

/-- C9, amended: `loadLanguageNames` reports an error exactly when `os.Open`
fails, and then returns `(nil, that error)`.  For every file that opens it
returns a non-nil list and a nil error, also when the scanner stopped on a
failure, and the list holds the tokens scanned before the failure, each line
without its final carriage return: with a line that reaches the token limit
after the lines `L`, the scanner records `ErrTooLong` and the list is `L`;
with a read error right after the lines `L`, the scanner records that error
and the list is `L`; with a read error inside the line after `L`, the list is
`L` followed by the fragment of that line read so far. -/
theorem loadLanguageNames_error_iff_open_fails (env : Env) (datasetPath : GoString)
    (t : List Event) :
    (∀ e, env.Open (env.Join datasetPath (str "languages.txt")) = .error e →
      (loadLanguageNames env datasetPath t).result = .ok (none, some e)) ∧
    (∀ f, env.Open (env.Join datasetPath (str "languages.txt")) = .ok f →
      ∃ names, (loadLanguageNames env datasetPath t).result = .ok (some names, none)) ∧
    ((∃ names e, (loadLanguageNames env datasetPath t).result = .ok (names, some e)) ↔
      ∃ e, env.Open (env.Join datasetPath (str "languages.txt")) = .error e) ∧
    (∀ L bad readErr, ShortLines L → (10 : UInt8) ∉ bad.take MaxScanTokenSize →
      MaxScanTokenSize ≤ bad.length →
      env.Open (env.Join datasetPath (str "languages.txt"))
        = .ok ⟨linesFile L ++ bad, readErr⟩ →
      (loadLanguageNames env datasetPath t).result = .ok (some (L.map dropCR), none) ∧
      (scanLoop ((linesFile L ++ bad).length + 1)
        (NewScanner ⟨linesFile L ++ bad, readErr⟩) []).2.err = some ScanErr.tooLong) ∧
    (∀ L e, ShortLines L →
      env.Open (env.Join datasetPath (str "languages.txt")) = .ok ⟨linesFile L, some e⟩ →
      (loadLanguageNames env datasetPath t).result = .ok (some (L.map dropCR), none) ∧
      (scanLoop ((linesFile L).length + 1) (NewScanner ⟨linesFile L, some e⟩) []).2.err
        = some (ScanErr.read e)) ∧
    (∀ L torn e, ShortLines L → torn ≠ [] → (10 : UInt8) ∉ torn →
      torn.length < MaxScanTokenSize →
      env.Open (env.Join datasetPath (str "languages.txt"))
        = .ok ⟨linesFile L ++ torn, some e⟩ →
      (loadLanguageNames env datasetPath t).result
        = .ok (some (L.map dropCR ++ [dropCR torn]), none) ∧
      (scanLoop ((linesFile L ++ torn).length + 1)
        (NewScanner ⟨linesFile L ++ torn, some e⟩) []).2.err = some (ScanErr.read e)) := by
  refine ⟨?_, ?_, ?_, ?_, ?_, ?_⟩
  · intro e h
    rw [loadLanguageNames_eq, h]
  · intro f h
    rw [loadLanguageNames_eq, h]
    exact ⟨_, rfl⟩
  · rw [loadLanguageNames_eq]
    cases h : env.Open (env.Join datasetPath (str "languages.txt")) with
    | error e => simp
    | ok f => simp
  · intro L bad readErr hL h10 hlen h
    have hs := scanLoop_linesFile L hL bad readErr
    rw [loadLanguageNames_eq, h]
    dsimp only
    rw [hs]
    simp [scanLoop, Scan_tooLong h10 hlen]
  · intro L e hL h
    have hs := scanLoop_linesFile L hL [] (some e)
    simp only [List.append_nil] at hs
    rw [loadLanguageNames_eq, h]
    dsimp only
    rw [hs]
    simp [scanLoop, Scan_empty]
  · intro L torn e hL hne h10 hlen h
    have hs := scanLoop_linesFile L hL torn (some e)
    obtain ⟨k, hk⟩ : ∃ k, torn.length = k + 1 :=
      ⟨torn.length - 1, by have := List.length_pos.mpr hne; omega⟩
    rw [loadLanguageNames_eq, h]
    dsimp only
    rw [hs, hk]
    simp [scanLoop, Scan_final h10 hne hlen, Scan_empty, Scanner.Text]

/-- Witness of C9 on the sample environment: a missing file, a file that
opens, a file with an overlong line, and three files whose reading fails:
after a whole line, inside a line, and inside a Windows line end. -/
theorem loadLanguageNames_error_iff_open_fails_witness :
    (loadLanguageNames sampleEnv (str "none") []).result
      = .ok (none, some ⟨str "no such file or directory"⟩) ∧
    (∃ names, (loadLanguageNames sampleEnv (str "data") []).result = .ok (some names, none)) ∧
    (loadLanguageNames sampleEnv (str "long") []).result
      = .ok (some ([str "Go"].map dropCR), none) ∧
    (loadLanguageNames sampleEnv (str "torn") []).result
      = .ok (some ([str "Go"].map dropCR), none) ∧
    (loadLanguageNames sampleEnv (str "frag") []).result
      = .ok (some ([str "Go"].map dropCR ++ [dropCR (str "Ru")]), none) ∧
    (loadLanguageNames sampleEnv (str "crlf") []).result
      = .ok (some ([str "Go\r"].map dropCR ++ [dropCR (str "C\r")]), none) ∧
    [str "Go\r"].map dropCR ++ [dropCR (str "C\r")] = [str "Go", str "C"] :=
  ⟨(loadLanguageNames_error_iff_open_fails sampleEnv (str "none") []).1 _ rfl,
   (loadLanguageNames_error_iff_open_fails sampleEnv (str "data") []).2.1
      ⟨linesFile [str "Go", str "C"], none⟩ rfl,
   ((loadLanguageNames_error_iff_open_fails sampleEnv (str "long") []).2.2.2.1
      [str "Go"] (List.replicate 65536 97) none (plainLines_short plainLines_single)
      (fun h => by
        have h2 := List.eq_of_mem_replicate (List.mem_of_mem_take h)
        exact absurd h2 (by decide))
      (by rw [List.length_replicate]; decide) rfl).1,
   ((loadLanguageNames_error_iff_open_fails sampleEnv (str "torn") []).2.2.2.2.1
      [str "Go"] ⟨str "input/output error"⟩ (plainLines_short plainLines_single) rfl).1,
   ((loadLanguageNames_error_iff_open_fails sampleEnv (str "frag") []).2.2.2.2.2
      [str "Go"] (str "Ru") ⟨str "input/output error"⟩ (plainLines_short plainLines_single)
      (by decide) (by decide) (by decide) rfl).1,
   ((loadLanguageNames_error_iff_open_fails sampleEnv (str "crlf") []).2.2.2.2.2
      [str "Go\r"] (str "C\r") ⟨str "input/output error"⟩ shortLines_crlf
      (by decide) (by decide) (by decide) rfl).1,
   by decide⟩

/-! ## Printing -/

theorem indexName_of_lt {languageNames : List GoString} {id : Nat}
    (h : id < languageNames.length) :
    indexName languageNames id = .ok (languageNames.getD id []) := by
  simp [indexName, List.getElem?_eq_getElem h, List.getD_eq_getElem?_getD]

theorem indexName_of_le {languageNames : List GoString} {id : Nat}
    (h : languageNames.length ≤ id) :
    indexName languageNames id = .error (.indexOutOfRange id languageNames.length) := by
  simp [indexName, List.getElem?_eq_none h]

theorem printTopNLanguagesFrom_cons_lt {languageNames : List GoString} {item : CountResultItem}
    (h : item.ID < languageNames.length) (i : Nat) (rest : List (Option CountResultItem))
    (t : List Event) :
    printTopNLanguagesFrom i (some item :: rest) languageNames t
      = printTopNLanguagesFrom (i + 1) rest languageNames
          (t ++ [.stdout (languageLine i (languageNames.getD item.ID []) item.Count)]) := by
  simp [printTopNLanguagesFrom, indexName_of_lt h, eval, Prog.bind, Prog.pure, emit]

theorem printTopNLanguagesFrom_cons_le {languageNames : List GoString} {item : CountResultItem}
    (h : languageNames.length ≤ item.ID) (i : Nat) (rest : List (Option CountResultItem))
    (t : List Event) :
    printTopNLanguagesFrom i (some item :: rest) languageNames t
      = ⟨t, .error (.panic (.indexOutOfRange item.ID languageNames.length))⟩ := by
  simp [printTopNLanguagesFrom, indexName_of_le h, eval, Prog.bind, stop]

/-- The events of the lines `printTopNLanguages` writes for `items`, the loop
index starting at `i`. -/
theorem printTopNLanguagesFrom_ok (languageNames : List GoString) :
    ∀ (items : List CountResultItem) (i : Nat) (t : List Event),
      (∀ it ∈ items, it.ID < languageNames.length) →
      printTopNLanguagesFrom i (items.map some) languageNames t
        = ⟨t ++ (items.enumFrom i).map fun p =>
            Event.stdout (languageLine p.1 (languageNames.getD p.2.ID []) p.2.Count), .ok ()⟩ := by
  intro items
  induction items with
  | nil => intro i t _; simp [printTopNLanguagesFrom, Prog.pure]
  | cons it rest ih =>
    intro i t h
    have hit := h it (List.mem_cons_self _ _)
    rw [List.map_cons, printTopNLanguagesFrom_cons_lt hit,
      ih (i + 1) _ (fun x hx => h x (List.mem_cons_of_mem _ hx))]
    simp [List.enumFrom_cons]

theorem printTopNLanguagesFrom_fail (languageNames : List GoString)
    (pre : List CountResultItem) (bad : CountResultItem) (post : List CountResultItem)
    (i : Nat) (t : List Event)
    (hpre : ∀ it ∈ pre, it.ID < languageNames.length) (hbad : languageNames.length ≤ bad.ID) :
    printTopNLanguagesFrom i ((pre ++ bad :: post).map some) languageNames t
      = ⟨t ++ (pre.enumFrom i).map fun p =>
            Event.stdout (languageLine p.1 (languageNames.getD p.2.ID []) p.2.Count),
          .error (.panic (.indexOutOfRange bad.ID languageNames.length))⟩ := by
  induction pre generalizing i t with
  | nil => simp [printTopNLanguagesFrom_cons_le hbad]
  | cons it rest ih =>
    have hit := hpre it (List.mem_cons_self _ _)
    rw [List.cons_append, List.map_cons, printTopNLanguagesFrom_cons_lt hit,
      ih (i + 1) _ (fun x hx => hpre x (List.mem_cons_of_mem _ hx))]
    simp [List.enumFrom_cons]

/-- A list either satisfies a bound everywhere or splits at its first
element that breaks it. -/
theorem split_at_first_bad (n : Nat) (items : List CountResultItem) :
    (∀ it ∈ items, it.ID < n) ∨
    ∃ pre bad post, items = pre ++ bad :: post ∧ (∀ it ∈ pre, it.ID < n) ∧ n ≤ bad.ID := by
  induction items with
  | nil => left; simp
  | cons it rest ih =>
    by_cases h : it.ID < n
    · rcases ih with hall | ⟨pre, bad, post, he, hp, hb⟩
      · left
        intro x hx
        rcases List.mem_cons.mp hx with rfl | hx
        · exact h
        · exact hall x hx
      · right
        refine ⟨it :: pre, bad, post, by simp [he], ?_, hb⟩
        intro x hx
        rcases List.mem_cons.mp hx with rfl | hx
        · exact h
        · exact hp x hx
    · right
      exact ⟨[], it, rest, rfl, by simp, Nat.le_of_not_lt h⟩

/-- C7: when every item has `ID < len(languageNames)`, `printTopNLanguages`
completes and writes exactly one line per item, in the order of the items;
line `k+1` is a tab, the number `k+1`, `". "`, the label
`languageNames[items[k].ID]`, `" ("`, `items[k].Count`, `" stars)"` and a
newline. -/
theorem printTopNLanguages_lines (items : List CountResultItem)
    (languageNames : List GoString) (t : List Event)
    (h : ∀ it ∈ items, it.ID < languageNames.length) :
    ∃ lines : List GoString,
      printTopNLanguages (items.map some) languageNames t
        = ⟨t ++ lines.map Event.stdout, .ok ()⟩ ∧
      lines.length = items.length ∧
      ∀ k it, items[k]? = some it → ∃ name, languageNames[it.ID]? = some name ∧
        lines[k]? = some (str "\t" ++ itoa (k + 1) ++ str ". " ++ name ++ str " ("
          ++ itoa it.Count ++ str " stars)\n") := by
  refine ⟨(items.enumFrom 0).map fun p =>
      languageLine p.1 (languageNames.getD p.2.ID []) p.2.Count, ?_, ?_, ?_⟩
  · rw [printTopNLanguages, printTopNLanguagesFrom_ok languageNames items 0 t h]
    simp [List.map_map, Function.comp_def]
  · simp
  · intro k it hk
    have hit : it.ID < languageNames.length := h it (List.getElem?_mem hk)
    refine ⟨languageNames.getD it.ID [], ?_, ?_⟩
    · simp [List.getD_eq_getElem?_getD, List.getElem?_eq_getElem hit]
    · simp [List.getElem?_map, List.getElem?_enumFrom, hk, languageLine]

/-- Witness of C7: two items against the labels `Go` and `C`. -/
theorem printTopNLanguages_lines_witness :
    (∀ it ∈ [(⟨0, 5⟩ : CountResultItem), ⟨1, 3⟩], it.ID < [str "Go", str "C"].length) ∧
    ∃ lines : List GoString,
      printTopNLanguages ([(⟨0, 5⟩ : CountResultItem), ⟨1, 3⟩].map some) [str "Go", str "C"] []
        = ⟨[] ++ lines.map Event.stdout, .ok ()⟩ ∧
      lines.length = [(⟨0, 5⟩ : CountResultItem), ⟨1, 3⟩].length ∧
      ∀ k it, [(⟨0, 5⟩ : CountResultItem), ⟨1, 3⟩][k]? = some it →
        ∃ name, [str "Go", str "C"][it.ID]? = some name ∧
        lines[k]? = some (str "\t" ++ itoa (k + 1) ++ str ". " ++ name ++ str " ("
          ++ itoa it.Count ++ str " stars)\n") :=
  ⟨by decide, printTopNLanguages_lines _ _ [] (by decide)⟩

/-- C8: for non-nil items, `printTopNLanguages` completes exactly when every
item has `ID < len(languageNames)`.  Otherwise it panics with an index out of
range at the first item that breaks the bound, after the lines of all items
before it; with an empty `languageNames` it panics for every non-empty list of
items. -/
theorem printTopNLanguages_safe_iff (items : List CountResultItem)
    (languageNames : List GoString) (t : List Event) :
    ((printTopNLanguages (items.map some) languageNames t).result = .ok () ↔
      ∀ it ∈ items, it.ID < languageNames.length) ∧
    (∀ pre bad post, items = pre ++ bad :: post →
      (∀ it ∈ pre, it.ID < languageNames.length) → languageNames.length ≤ bad.ID →
      printTopNLanguages (items.map some) languageNames t
        = ⟨t ++ (pre.enumFrom 0).map fun p =>
              Event.stdout (languageLine p.1 (languageNames.getD p.2.ID []) p.2.Count),
            .error (.panic (.indexOutOfRange bad.ID languageNames.length))⟩) ∧
    (languageNames = [] → items ≠ [] →
      ∃ i, printTopNLanguages (items.map some) languageNames t
        = ⟨t, .error (.panic (.indexOutOfRange i 0))⟩) := by
  refine ⟨⟨?_, ?_⟩, ?_, ?_⟩
  · intro hok
    rcases split_at_first_bad languageNames.length items with hall | ⟨pre, bad, post, he, hp, hb⟩
    · exact hall
    · rw [he, printTopNLanguages, printTopNLanguagesFrom_fail languageNames pre bad post 0 t hp hb]
        at hok
      cases hok
  · intro hall
    rw [printTopNLanguages, printTopNLanguagesFrom_ok languageNames items 0 t hall]
  · intro pre bad post he hp hb
    rw [he, printTopNLanguages, printTopNLanguagesFrom_fail languageNames pre bad post 0 t hp hb]
  · intro hn hi
    subst hn
    cases items with
    | nil => exact absurd rfl hi
    | cons it rest =>
      refine ⟨it.ID, ?_⟩
      rw [printTopNLanguages, List.map_cons,
        printTopNLanguagesFrom_cons_le (Nat.zero_le _)]
      rfl

/-- Witness of C8: the second of three items has no label. -/
theorem printTopNLanguages_safe_iff_witness :
    printTopNLanguages ([(⟨0, 5⟩ : CountResultItem), ⟨7, 3⟩, ⟨1, 2⟩].map some)
        [str "Go", str "C"] []
      = ⟨[.stdout (str "\t1. Go (5 stars)\n")], .error (.panic (.indexOutOfRange 7 2))⟩ ∧
    (∃ i, printTopNLanguages ([(⟨0, 5⟩ : CountResultItem)].map some) [] []
      = ⟨[], .error (.panic (.indexOutOfRange i 0))⟩) :=
  ⟨(printTopNLanguages_safe_iff [⟨0, 5⟩, ⟨7, 3⟩, ⟨1, 2⟩] [str "Go", str "C"] []).2.1
      [⟨0, 5⟩] ⟨7, 3⟩ [⟨1, 2⟩] rfl (by decide) (by decide),
   (printTopNLanguages_safe_iff [⟨0, 5⟩] [] []).2.2 rfl (by decide)⟩

/-! ## Runs of `runQueries` -/

@[simp] theorem sentQueries_append (a b : List Event) :
    sentQueries (a ++ b) = sentQueries a ++ sentQueries b := by
  induction a with
  | nil => rfl
  | cons e rest ih => cases e <;> simp [sentQueries, ih]

@[simp] theorem sentQueries_map_stdout {α : Type} (f : α → GoString) (l : List α) :
    sentQueries (l.map fun p => Event.stdout (f p)) = [] := by
  induction l with
  | nil => rfl
  | cons e rest ih => simp [sentQueries, ih]

theorem printIDsFrom_eq (ids : List Nat) : ∀ (i : Nat) (t : List Event),
    printIDsFrom i ids t
      = ⟨t ++ (ids.enumFrom i).map fun p => Event.stdout (idLine p.1 p.2), .ok ()⟩ := by
  induction ids with
  | nil => intro i t; simp [printIDsFrom, Prog.pure]
  | cons id rest ih =>
    intro i t
    simp [printIDsFrom, Prog.bind, emit, ih, List.enumFrom_cons]

theorem bind_callSchema {β : Type} (client : Client) (f : Option GoError → Prog β)
    (t : List Event) :
    (client.callSchema >>= f) t = f client.Schema (t ++ [.schema]) := rfl

theorem bind_callQuery {β : Type} (client : Client) (q : PQLQuery)
    (f : Option QueryResponse × Option GoError → Prog β) (t : List Event) :
    (client.callQuery q >>= f) t = f (client.Query (sentQueries t) q) (t ++ [.query q]) := rfl

theorem bind_emit {β : Type} (e : Event) (f : Unit → Prog β) (t : List Event) :
    (emit e >>= f) t = f () (t ++ [e]) := rfl

theorem bind_Println {β : Type} (s : GoString) (f : Unit → Prog β) (t : List Event) :
    (Println s >>= f) t = f () (t ++ [.stdout (s ++ str "\n")]) := rfl

theorem bind_pure {α β : Type} (a : α) (f : α → Prog β) (t : List Event) :
    ((pure a : Prog α) >>= f) t = f a t := rfl

theorem bind_stop {α β : Type} (s : Stop) (f : α → Prog β) (t : List Event) :
    ((stop s : Prog α) >>= f) t = ⟨t, .error s⟩ := rfl

theorem bind_checkErr_none {β : Type} (f : Unit → Prog β) (t : List Event) :
    (checkErr none >>= f) t = f () t := rfl

theorem bind_checkErr_some {β : Type} (e : GoError) (f : Unit → Prog β) (t : List Event) :
    (checkErr (some e) >>= f) t = ⟨t, .error (.panic (.error e))⟩ := rfl

theorem bind_eval_ok {α β : Type} (a : α) (f : α → Prog β) (t : List Event) :
    (eval (.ok a) >>= f) t = f a t := rfl

theorem bind_eval_error {α β : Type} (p : Panic) (f : α → Prog β) (t : List Event) :
    (eval (.error p : Except Panic α) >>= f) t = ⟨t, .error (.panic p)⟩ := rfl

theorem bind_printIDs {β : Type} (ids : List Nat) (f : Unit → Prog β) (t : List Event) :
    (printIDs ids >>= f) t
      = f () (t ++ (ids.enumFrom 0).map fun p => Event.stdout (idLine p.1 p.2)) := by
  show Prog.bind (printIDs ids) f t = _
  simp [Prog.bind, printIDs, printIDsFrom_eq]

theorem bind_printTopNLanguages_ok {β : Type} (items : List CountResultItem)
    (languageNames : List GoString) (h : ∀ it ∈ items, it.ID < languageNames.length)
    (f : Unit → Prog β) (t : List Event) :
    (printTopNLanguages (items.map some) languageNames >>= f) t
      = f () (t ++ (items.enumFrom 0).map fun p =>
          Event.stdout (languageLine p.1 (languageNames.getD p.2.ID []) p.2.Count)) := by
  show Prog.bind (printTopNLanguages (items.map some) languageNames) f t = _
  simp [Prog.bind, printTopNLanguages, printTopNLanguagesFrom_ok languageNames items 0 t h]

theorem sentQueries_nil : sentQueries [] = [] := rfl

theorem sentQueries_schema : sentQueries [.schema] = [] := rfl

theorem sentQueries_stdout (s : GoString) : sentQueries [.stdout s] = [] := rfl

theorem sentQueries_query (q : PQLQuery) : sentQueries [.query q] = [q] := rfl

theorem sentQueries_cons_schema (r : List Event) :
    sentQueries (.schema :: r) = sentQueries r := rfl

theorem sentQueries_cons_stdout (s : GoString) (r : List Event) :
    sentQueries (.stdout s :: r) = sentQueries r := rfl

theorem sentQueries_cons_query (q : PQLQuery) (r : List Event) :
    sentQueries (.query q :: r) = q :: sentQueries r := rfl

theorem emit_apply (e : Event) (t : List Event) : emit e t = ⟨t ++ [e], .ok ()⟩ := rfl

theorem sentQueries_idLines (ids : List Nat) : sentQueries (idLines ids) = [] :=
  sentQueries_map_stdout _ _

theorem sentQueries_languageLines (items : List CountResultItem) (languageNames : List GoString) :
    sentQueries (languageLines items languageNames) = [] :=
  sentQueries_map_stdout _ _

theorem sentQueries_sessionTrace (languageNames : List GoString) (b1 : List Nat)
    (items : List CountResultItem) (b3 b4 b5 : List Nat) :
    sentQueries (sessionTrace languageNames b1 items b3 b4 b5) = sessionQueries := by
  simp only [sessionTrace, sentQueries_append, sentQueries_idLines, sentQueries_languageLines,
    sentQueries_cons_schema, sentQueries_cons_stdout, sentQueries_cons_query, sentQueries_nil,
    List.append_nil, List.nil_append]
  rfl

/-- The complete run: when the schema call succeeds, the first and the last
query return no error and the five answers can be read, the run returns and
its events are `sessionTrace`. -/
theorem runQueries_complete (client : Client) (languageNames : List GoString)
    (b1 : List Nat) (items : List CountResultItem) (b3 b4 b5 : List Nat)
    (hschema : client.Schema = none)
    (h1 : resultBits (client.Query [] (.Bitmap stargazer 14)).1 = .ok b1)
    (e1 : (client.Query [] (.Bitmap stargazer 14)).2 = none)
    (h2 : resultCountItems (client.Query (sessionQueries.take 1) (.TopN language 5)).1
      = .ok (items.map some))
    (hbound : ∀ it ∈ items, it.ID < languageNames.length)
    (h3 : resultBits (client.Query (sessionQueries.take 2)
      (.Intersect repository [.Bitmap stargazer 14, .Bitmap stargazer 19])).1 = .ok b3)
    (h4 : resultBits (client.Query (sessionQueries.take 3)
      (.Union repository [.Bitmap stargazer 14, .Bitmap stargazer 19])).1 = .ok b4)
    (h5 : resultBits (client.Query (sessionQueries.take 4)
      (.Intersect repository
        [.Union repository [.Bitmap stargazer 14, .Bitmap stargazer 19], .Bitmap language 1])).1
      = .ok b5)
    (e6 : (client.Query (sessionQueries.take 5) (.SetBit stargazer 99999 77777)).2 = none) :
    runQueries client languageNames []
      = ⟨sessionTrace languageNames b1 items b3 b4 b5, .ok ()⟩ := by
  simp only [sessionQueries, List.take_succ_cons, List.take_zero] at h2 h3 h4 h5 e6
  simp only [stargazer, language, repository] at *
  unfold runQueries
  simp only [bind_callSchema, hschema, bind_pure, bind_callQuery, bind_checkErr_none,
    Frame.Bitmap, Frame.TopN, Frame.SetBit, Index.Intersect, Index.Union,
    sentQueries_append, sentQueries_map_stdout, sentQueries_nil, sentQueries_schema,
    sentQueries_stdout, sentQueries_query, sentQueries_cons_schema, sentQueries_cons_stdout,
    sentQueries_cons_query, List.nil_append, List.append_nil, List.cons_append,
    h1, e1, h2, h3, h4, h5, e6, bind_eval_ok, bind_Println, bind_printIDs,
    bind_printTopNLanguages_ok _ _ hbound, emit_apply]
  simp only [sessionTrace, idLines, languageLines, stargazer, language, repository,
    List.append_assoc, List.cons_append, List.nil_append]
  rfl

theorem runQueries_sends_all (client : Client) (languageNames : List GoString)
    (hs : client.Succeeds) (hd : client.Decodes languageNames.length) :
    (runQueries client languageNames []).result = .ok () ∧
    sentQueries (runQueries client languageNames []).trace = sessionQueries := by
  obtain ⟨hschema, herr⟩ := hs
  obtain ⟨hB, hI, hU, hT⟩ := hd
  obtain ⟨b1, h1⟩ := hB [] stargazer 14
  obtain ⟨items, h2, hbound⟩ := hT (sessionQueries.take 1) language 5
  obtain ⟨b3, h3⟩ := hI (sessionQueries.take 2) repository
    [.Bitmap stargazer 14, .Bitmap stargazer 19]
  obtain ⟨b4, h4⟩ := hU (sessionQueries.take 3) repository
    [.Bitmap stargazer 14, .Bitmap stargazer 19]
  obtain ⟨b5, h5⟩ := hI (sessionQueries.take 4) repository
    [.Union repository [.Bitmap stargazer 14, .Bitmap stargazer 19], .Bitmap language 1]
  rw [runQueries_complete client languageNames b1 items b3 b4 b5 hschema h1 (herr _ _) h2 hbound
    h3 h4 h5 (herr _ _)]
  exact ⟨rfl, sentQueries_sessionTrace _ _ _ _ _ _⟩

theorem sampleClient_succeeds : sampleClient.Succeeds := ⟨rfl, fun _ _ => rfl⟩

theorem sampleClient_decodes : sampleClient.Decodes [str "Go", str "C"].length := by
  refine ⟨fun _ _ _ => ⟨_, rfl⟩, fun _ _ _ => ⟨_, rfl⟩, fun _ _ _ => ⟨_, rfl⟩, fun _ _ _ => ?_⟩
  exact ⟨[⟨0, 5⟩, ⟨1, 3⟩], rfl, by decide⟩

/-- C1, the code at a failing input: the second query (`TopN`) fails with
`connection refused` and a nil response.  The run does not raise that error:
no `checkErr` follows the call, the header of the query is not reached, and
the run panics on the nil response with a nil dereference. -/
theorem runQueries_topN_error_not_raised :
    (withReply sampleClient 1 (none, some ⟨str "connection refused"⟩)).Query
        [.Bitmap stargazer 14] (.TopN language 5)
      = (none, some ⟨str "connection refused"⟩) ∧
    runQueries (withReply sampleClient 1 (none, some ⟨str "connection refused"⟩))
        [str "Go", str "C"] []
      = ⟨[.schema, .query (.Bitmap stargazer 14), .stdout (str "User 14 starred:\n"),
          .stdout (str "\t1. 1\n"), .stdout (str "\t2. 2\n"), .stdout (str "\t3. 3\n"),
          .stdout (str "\n"), .query (.TopN language 5)],
         .error (.panic .nilDereference)⟩ ∧
    (runQueries (withReply sampleClient 1 (none, some ⟨str "connection refused"⟩))
        [str "Go", str "C"] []).result
      ≠ .error (.panic (.error ⟨str "connection refused"⟩)) := by
  refine ⟨rfl, rfl, ?_⟩
  intro h
  have h2 : (runQueries (withReply sampleClient 1 (none, some ⟨str "connection refused"⟩))
      [str "Go", str "C"] []).result = .error (.panic .nilDereference) := rfl
  rw [h2] at h
  cases h

/-- C2 as stated fails: every call of the sample client succeeds, but with an
empty label list the run panics in `printTopNLanguages` after the second
query, so only two of the six queries are sent. -/
theorem runQueries_fixed_sequence_counterexample :
    sampleClient.Succeeds ∧
    (runQueries sampleClient [] []).result = .error (.panic (.indexOutOfRange 0 0)) ∧
    sentQueries (runQueries sampleClient [] []).trace
      = [.Bitmap stargazer 14, .TopN language 5] ∧
    sentQueries (runQueries sampleClient [] []).trace ≠ sessionQueries := by
  refine ⟨sampleClient_succeeds, rfl, rfl, ?_⟩
  intro h
  have h2 : sentQueries (runQueries sampleClient [] []).trace
      = [.Bitmap stargazer 14, .TopN language 5] := rfl
  rw [h2] at h
  have h3 := congrArg List.length h
  simp [sessionQueries] at h3

/-- C2, amended: for every `languageNames` and every client whose calls all
succeed and whose replies can be read (a bitmap in the replies to `Bitmap`,
`Intersect` and `Union`; non-nil items with `ID < len(languageNames)` in the
reply to `TopN`), the run returns and sends exactly the six queries
`Bitmap(14)`, `TopN(5)`, `Intersect(Bitmap(14), Bitmap(19))`,
`Union(Bitmap(14), Bitmap(19))`,
`Intersect(Union(Bitmap(14), Bitmap(19)), language.Bitmap(1))`,
`SetBit(99999, 77777)`, in this order; exactly one of them is a mutation and
it is the last one. -/
theorem runQueries_fixed_sequence (client : Client) (languageNames : List GoString)
    (hs : client.Succeeds) (hd : client.Decodes languageNames.length) :
    (runQueries client languageNames []).result = .ok () ∧
    sentQueries (runQueries client languageNames []).trace
      = [ .Bitmap ⟨⟨str "repository"⟩, str "stargazer"⟩ 14,
          .TopN ⟨⟨str "repository"⟩, str "language"⟩ 5,
          .Intersect ⟨str "repository"⟩
            [.Bitmap ⟨⟨str "repository"⟩, str "stargazer"⟩ 14,
             .Bitmap ⟨⟨str "repository"⟩, str "stargazer"⟩ 19],
          .Union ⟨str "repository"⟩
            [.Bitmap ⟨⟨str "repository"⟩, str "stargazer"⟩ 14,
             .Bitmap ⟨⟨str "repository"⟩, str "stargazer"⟩ 19],
          .Intersect ⟨str "repository"⟩
            [.Union ⟨str "repository"⟩
              [.Bitmap ⟨⟨str "repository"⟩, str "stargazer"⟩ 14,
               .Bitmap ⟨⟨str "repository"⟩, str "stargazer"⟩ 19],
             .Bitmap ⟨⟨str "repository"⟩, str "language"⟩ 1],
          .SetBit ⟨⟨str "repository"⟩, str "stargazer"⟩ 99999 77777 ] ∧
    ((sentQueries (runQueries client languageNames []).trace).filter
      PQLQuery.isMutation).length = 1 ∧
    (sentQueries (runQueries client languageNames []).trace).getLast?
      = some (.SetBit ⟨⟨str "repository"⟩, str "stargazer"⟩ 99999 77777) := by
  obtain ⟨hok, hsent⟩ := runQueries_sends_all client languageNames hs hd
  rw [hsent]
  exact ⟨hok, rfl, rfl, rfl⟩

/-- Witness of C2: the sample client with the labels `Go` and `C`. -/
theorem runQueries_fixed_sequence_witness :
    sampleClient.Succeeds ∧ sampleClient.Decodes [str "Go", str "C"].length ∧
    (runQueries sampleClient [str "Go", str "C"] []).result = .ok () ∧
    sentQueries (runQueries sampleClient [str "Go", str "C"] []).trace = sessionQueries :=
  ⟨sampleClient_succeeds, sampleClient_decodes,
    (runQueries_fixed_sequence sampleClient [str "Go", str "C"]
      sampleClient_succeeds sampleClient_decodes).1,
    (runQueries_fixed_sequence sampleClient [str "Go", str "C"]
      sampleClient_succeeds sampleClient_decodes).2.1⟩

/-- C3 as stated fails: the sample client answers the `TopN` query with a
bitmap-shaped result (a bitmap, no count items).  Reading `CountItems` yields
the empty ranked list and no error: the run prints the header
`Top Languages:` with no item under it and goes on to the end. -/
theorem decode_shape_mismatch_counterexample :
    resultCountItems (some ⟨some ⟨some ⟨[1, 2, 3]⟩, []⟩⟩) = .ok [] ∧
    (runQueries (withReply sampleClient 1 (some ⟨some ⟨some ⟨[1, 2, 3]⟩, []⟩⟩, none))
      [str "Go", str "C"] []).result = .ok () ∧
    (printed (runQueries (withReply sampleClient 1 (some ⟨some ⟨some ⟨[1, 2, 3]⟩, []⟩⟩, none))
      [str "Go", str "C"] []).trace).take 8
      = [str "User 14 starred:\n", str "\t1. 1\n", str "\t2. 2\n", str "\t3. 3\n", str "\n",
         str "Top Languages:\n", str "\n", str "Both user 14 and 19 starred:\n"] :=
  ⟨rfl, rfl, rfl⟩

/-- C3, amended: `runQueries` reads the fields of a result without a shape
check, and no decode error exists.  On a non-nil result, reading `CountItems`
never fails and yields the field as it is, and reading `Bitmap.Bits` yields
the bits of a non-nil bitmap and panics with a nil dereference on a nil one.
So a run whose `TopN` reply is bitmap-shaped (no count items) completes with an
empty ranking under the header, and a run whose first reply is top-N-shaped
with a nil bitmap stops with a nil dereference right after the first query. -/
theorem decode_without_shape_check (client : Client) (languageNames : List GoString) :
    (∀ result, resultCountItems (some ⟨some result⟩) = .ok result.CountItems) ∧
    (∀ bitmap items, resultBits (some ⟨some ⟨some bitmap, items⟩⟩) = .ok bitmap.Bits) ∧
    (∀ items, resultBits (some ⟨some ⟨none, items⟩⟩) = .error .nilDereference) ∧
    (∀ b1 bitmap2 b3 b4 b5, client.Schema = none →
      resultBits (client.Query [] (.Bitmap stargazer 14)).1 = .ok b1 →
      (client.Query [] (.Bitmap stargazer 14)).2 = none →
      (client.Query (sessionQueries.take 1) (.TopN language 5)).1
        = some ⟨some ⟨some bitmap2, []⟩⟩ →
      resultBits (client.Query (sessionQueries.take 2)
        (.Intersect repository [.Bitmap stargazer 14, .Bitmap stargazer 19])).1 = .ok b3 →
      resultBits (client.Query (sessionQueries.take 3)
        (.Union repository [.Bitmap stargazer 14, .Bitmap stargazer 19])).1 = .ok b4 →
      resultBits (client.Query (sessionQueries.take 4)
        (.Intersect repository
          [.Union repository [.Bitmap stargazer 14, .Bitmap stargazer 19],
           .Bitmap language 1])).1 = .ok b5 →
      (client.Query (sessionQueries.take 5) (.SetBit stargazer 99999 77777)).2 = none →
      runQueries client languageNames []
        = ⟨sessionTrace languageNames b1 [] b3 b4 b5, .ok ()⟩) ∧
    (∀ items, client.Schema = none →
      client.Query [] (.Bitmap stargazer 14) = (some ⟨some ⟨none, items⟩⟩, none) →
      runQueries client languageNames []
        = ⟨[.schema, .query (.Bitmap stargazer 14)], .error (.panic .nilDereference)⟩) := by
  refine ⟨fun _ => rfl, fun _ _ => rfl, fun _ => rfl, ?_, ?_⟩
  · intro b1 bitmap2 b3 b4 b5 hschema h1 e1 h2 h3 h4 h5 e6
    refine runQueries_complete client languageNames b1 [] b3 b4 b5 hschema h1 e1 ?_
      (by simp) h3 h4 h5 e6
    rw [h2]
    rfl
  · intro items hschema h1
    simp only [stargazer, repository] at h1
    unfold runQueries
    simp only [bind_callSchema, hschema, bind_pure, bind_callQuery, Frame.Bitmap,
      sentQueries_append, sentQueries_nil, sentQueries_schema, List.nil_append, h1,
      bind_checkErr_none]
    rfl

/-- Witness of C3: the sample client with a bitmap-shaped second reply, and
with a first reply that is top-N-shaped with a nil bitmap. -/
theorem decode_without_shape_check_witness :
    runQueries (withReply sampleClient 1 (some ⟨some ⟨some ⟨[1, 2, 3]⟩, []⟩⟩, none))
        [str "Go", str "C"] []
      = ⟨sessionTrace [str "Go", str "C"] [1, 2, 3] [] [2, 3] [1, 2, 3, 4] [2], .ok ()⟩ ∧
    runQueries (withReply sampleClient 0 (some ⟨some ⟨none, [some ⟨0, 5⟩]⟩⟩, none))
        [str "Go", str "C"] []
      = ⟨[.schema, .query (.Bitmap stargazer 14)], .error (.panic .nilDereference)⟩ :=
  ⟨(decode_without_shape_check
      (withReply sampleClient 1 (some ⟨some ⟨some ⟨[1, 2, 3]⟩, []⟩⟩, none))
      [str "Go", str "C"]).2.2.2.1 [1, 2, 3] ⟨[1, 2, 3]⟩ [2, 3] [1, 2, 3, 4] [2]
      rfl rfl rfl rfl rfl rfl rfl rfl,
   (decode_without_shape_check
      (withReply sampleClient 0 (some ⟨some ⟨none, [some ⟨0, 5⟩]⟩⟩, none))
      [str "Go", str "C"]).2.2.2.2 [some ⟨0, 5⟩] rfl rfl⟩

/-! ## Set semantics of the session queries -/

/-- C4: on every fixture where row 14 of `stargazer` holds {1,2,3} and row 19
holds {2,3,4}, the third query a complete run sends, the `Intersect` of the
two rows, evaluates under set semantics to exactly {2,3}, and the fourth, their
`Union`, to exactly {1,2,3,4}. -/
theorem session_intersect_union_on_fixture (client : Client) (languageNames : List GoString)
    (data : Frame → Nat → Finset Nat)
    (hs : client.Succeeds) (hd : client.Decodes languageNames.length)
    (h14 : data stargazer 14 = {1, 2, 3}) (h19 : data stargazer 19 = {2, 3, 4}) :
    (sentQueries (runQueries client languageNames []).trace)[2]?
      = some (.Intersect repository [.Bitmap stargazer 14, .Bitmap stargazer 19]) ∧
    (sentQueries (runQueries client languageNames []).trace)[3]?
      = some (.Union repository [.Bitmap stargazer 14, .Bitmap stargazer 19]) ∧
    evalQuery data (.Intersect repository [.Bitmap stargazer 14, .Bitmap stargazer 19])
      = some {2, 3} ∧
    evalQuery data (.Union repository [.Bitmap stargazer 14, .Bitmap stargazer 19])
      = some {1, 2, 3, 4} := by
  obtain ⟨_, hsent⟩ := runQueries_sends_all client languageNames hs hd
  rw [hsent]
  refine ⟨rfl, rfl, ?_, ?_⟩
  · simp only [evalQuery, evalIntersect, h14, h19]
    decide
  · simp only [evalQuery, evalUnion, h14, h19]
    decide

/-- Witness of C4: the sample client against the fixture of the scenario. -/
theorem session_intersect_union_on_fixture_witness :
    fixture stargazer 14 = {1, 2, 3} ∧ fixture stargazer 19 = {2, 3, 4} ∧
    evalQuery fixture (.Intersect repository [.Bitmap stargazer 14, .Bitmap stargazer 19])
      = some {2, 3} ∧
    evalQuery fixture (.Union repository [.Bitmap stargazer 14, .Bitmap stargazer 19])
      = some {1, 2, 3, 4} :=
  ⟨by decide, by decide,
    (session_intersect_union_on_fixture sampleClient [str "Go", str "C"] fixture
      sampleClient_succeeds sampleClient_decodes (by decide) (by decide)).2.2.1,
    (session_intersect_union_on_fixture sampleClient [str "Go", str "C"] fixture
      sampleClient_succeeds sampleClient_decodes (by decide) (by decide)).2.2.2⟩

/-! ## Arguments of `main` -/

/-- With a dataset path and an address, `main` parses the address, creates
the client, loads the labels and runs the session. -/
theorem main_three (env : Env) (prog datasetPath address : GoString) (rest : List GoString)
    (t : List Event) :
    main env (prog :: datasetPath :: address :: rest) t
      = (do
          emit (.newURI address)
          checkErr (env.NewURIFromAddress address).2
          emit (.newClient (env.NewURIFromAddress address).1)
          let r ← loadLanguageNames env datasetPath
          checkErr r.2
          runQueries (env.NewClientWithURI (env.NewURIFromAddress address).1) (r.1.getD [])) t := by
  have hlen : ¬ (prog :: datasetPath :: address :: rest).length < 2 := by simp
  have hlen2 : (prog :: datasetPath :: address :: rest).length > 2 := by simp
  unfold main
  simp only [dif_neg hlen, dif_pos hlen2]
  rfl

/-- With a dataset path only, the address is `:10101`. -/
theorem main_two (env : Env) (prog datasetPath : GoString) (t : List Event) :
    main env [prog, datasetPath] t = main env [prog, datasetPath, str ":10101"] t := by
  rw [main_three]
  have hlen : ¬ [prog, datasetPath].length < 2 := by simp
  have hlen2 : ¬ [prog, datasetPath].length > 2 := by simp
  unfold main
  simp only [dif_neg hlen, dif_neg hlen2]
  rfl

/-- C6: with fewer than two arguments `main` prints the usage line and exits
with status 1, and nothing else happens (no client, no file, no query).
Otherwise the dataset path is `args[1]`; the address is `args[2]`, or `:10101`
when there are exactly two arguments; arguments after `args[2]` are ignored.
The address is what `pilosa.NewURIFromAddress` receives, and the dataset path
is the directory of the `languages.txt` that is opened. -/
theorem main_argument_handling (env : Env) :
    (∀ args : List GoString, args.length < 2 →
      main env args [] = ⟨[.stdout usageLine], .error (.exit 1)⟩) ∧
    (∀ prog datasetPath : GoString,
      main env [prog, datasetPath] [] = main env [prog, datasetPath, str ":10101"] []) ∧
    (∀ (prog datasetPath address : GoString) (rest : List GoString),
      main env (prog :: datasetPath :: address :: rest) []
        = main env [prog, datasetPath, address] []) ∧
    (∀ (prog datasetPath address : GoString) uri e,
      env.NewURIFromAddress address = (uri, some e) →
      main env [prog, datasetPath, address] []
        = ⟨[.newURI address], .error (.panic (.error e))⟩) ∧
    (∀ (prog datasetPath address : GoString) uri e,
      env.NewURIFromAddress address = (uri, none) →
      env.Open (env.Join datasetPath (str "languages.txt")) = .error e →
      main env [prog, datasetPath, address] []
        = ⟨[.newURI address, .newClient uri,
            .openFile (env.Join datasetPath (str "languages.txt"))],
           .error (.panic (.error e))⟩) ∧
    (∀ (prog datasetPath address : GoString) uri f,
      env.NewURIFromAddress address = (uri, none) →
      env.Open (env.Join datasetPath (str "languages.txt")) = .ok f →
      main env [prog, datasetPath, address] []
        = runQueries (env.NewClientWithURI uri)
            (scanLoop (f.data.length + 1) (NewScanner f) []).1
            [.newURI address, .newClient uri,
             .openFile (env.Join datasetPath (str "languages.txt"))]) := by
  refine ⟨?_, ?_, ?_, ?_, ?_, ?_⟩
  · intro args h
    unfold main
    simp only [dif_pos h]
    rfl
  · intro prog datasetPath
    exact main_two env prog datasetPath []
  · intro prog datasetPath address rest
    rw [main_three, main_three]
  · intro prog datasetPath address uri e h
    rw [main_three]
    simp only [bind_emit, h, bind_checkErr_some, List.nil_append]
  · intro prog datasetPath address uri e h ho
    rw [main_three]
    simp only [bind_emit, h, bind_checkErr_none, List.nil_append]
    show Prog.bind (loadLanguageNames env datasetPath) _ _ = _
    simp only [Prog.bind, loadLanguageNames_eq, ho]
    rfl
  · intro prog datasetPath address uri f h ho
    rw [main_three]
    simp only [bind_emit, h, bind_checkErr_none, List.nil_append]
    show Prog.bind (loadLanguageNames env datasetPath) _ _ = _
    simp only [Prog.bind, loadLanguageNames_eq, ho]
    rfl

/-- Witness of C6 on the sample environment: no argument, a missing dataset,
and the sample dataset with the default address. -/
theorem main_argument_handling_witness :
    main sampleEnv [str "startrace"] [] = ⟨[.stdout usageLine], .error (.exit 1)⟩ ∧
    main sampleEnv [str "startrace", str "none", str "localhost:10101"] []
      = ⟨[.newURI (str "localhost:10101"), .newClient (some ⟨str "localhost:10101"⟩),
          .openFile (str "none/languages.txt")],
         .error (.panic (.error ⟨str "no such file or directory"⟩))⟩ ∧
    main sampleEnv [str "startrace", str "data", str ":10101"] []
      = runQueries sampleClient
          (scanLoop ((linesFile [str "Go", str "C"]).length + 1)
            (NewScanner ⟨linesFile [str "Go", str "C"], none⟩) []).1
          [.newURI (str ":10101"), .newClient (some ⟨str ":10101"⟩),
           .openFile (str "data/languages.txt")] :=
  ⟨(main_argument_handling sampleEnv).1 [str "startrace"] (by decide),
   (main_argument_handling sampleEnv).2.2.2.2.1 (str "startrace") (str "none")
      (str "localhost:10101") (some ⟨str "localhost:10101"⟩)
      ⟨str "no such file or directory"⟩ rfl rfl,
   (main_argument_handling sampleEnv).2.2.2.2.2 (str "startrace") (str "data")
      (str ":10101") (some ⟨str ":10101"⟩) ⟨linesFile [str "Go", str "C"], none⟩ rfl rfl⟩

/-! ## Where `runQueries` does check the error -/

/-- An error of `client.Schema()` is raised by `panic(err)`. -/
theorem runQueries_schema_error_raised (client : Client) (languageNames : List GoString)
    (e : GoError) (h : client.Schema = some e) :
    runQueries client languageNames [] = ⟨[.schema], .error (.panic (.error e))⟩ := by
  unfold runQueries
  simp only [bind_callSchema, h]
  rfl

/-- An error of the first query is raised by `checkErr`, before anything is
printed. -/
theorem runQueries_first_error_raised (client : Client) (languageNames : List GoString)
    (e : GoError) (hschema : client.Schema = none)
    (h : (client.Query [] (.Bitmap stargazer 14)).2 = some e) :
    runQueries client languageNames []
      = ⟨[.schema, .query (.Bitmap stargazer 14)], .error (.panic (.error e))⟩ := by
  simp only [stargazer, repository] at h
  unfold runQueries
  simp only [bind_callSchema, hschema, bind_pure, bind_callQuery, Frame.Bitmap,
    sentQueries_append, sentQueries_nil, sentQueries_schema, List.nil_append, h,
    bind_checkErr_some]
  rfl

end Startrace
